import Mathlib

/-!
Shallow embedding of the Synergy multi-AI orchestration route
(`src/api/route.ts`): the data model, the two provider adapters
(`handleAnthropicParticipant`, `handleOpenAIParticipant`), the system
prompt builder, request validation and the sequential orchestration loop
of `POST`.  Provider streams are modelled as oracles: the list of
provider-native events a stream yields, plus an optional error thrown at
stream creation or during iteration.  JavaScript truthiness of optional
strings and numbers is modelled explicitly (`truthyS`, `orNum`, `orStr`).
-/

namespace Synergy

/-- An attached file on an inbound user message (`AttachedFile` in the
TypeScript types): a MIME type and a data-URL content string. -/
structure AttachedFile where
  ftype : String
  content : String
deriving DecidableEq, Repr

/-- A canonical conversation turn as held in `conversationHistory`:
role, text content, optional attribution (participant name), and the
attached files of user turns. -/
structure Turn where
  role : String
  content : String
  attribution : Option String := none
  attachedFiles : List AttachedFile := []
deriving DecidableEq, Repr

/-- A participant configuration (`SynergyParticipant`), with the
provider-specific option bags flattened: `extendedThinking` and
`budgetTokens` are `participant.anthropic?.extendedThinking` and
`participant.anthropic?.budgetTokens`; `reasoning` stands for
`participant.openai?.reasoning` (opaque here). -/
structure Participant where
  id : String := ""
  name : String
  provider : String
  model : String
  systemPrompt : Option String := none
  temperature : Option ℚ := none
  maxTokens : Option Int := none
  extendedThinking : Option Bool := none
  budgetTokens : Option Int := none
  reasoning : Option String := none
deriving DecidableEq, Repr

/-- JavaScript truthiness of an optional string: `undefined` and `""`
are falsy. -/
def truthyS : Option String → Bool
  | some s => s ≠ ""
  | none => false

/-- JavaScript `x || d` for an optional number `x`: `undefined` and `0`
fall back to `d`. -/
def orNum (o : Option Int) (d : Int) : Int :=
  match o with
  | some n => if n = 0 then d else n
  | none => d

/-- JavaScript `x || d` for an optional string `x`: `undefined` and `""`
fall back to `d`. -/
def orStr (o : Option String) (d : String) : String :=
  match o with
  | some s => if s = "" then d else s
  | none => d

/-- The function `generateSystemPrompt` from the source: the fixed identity template
embedding the participant's name/model, the comma-joined peer list, the
optional participant instructions and the optional base prompt. -/
def generateSystemPrompt (participant : Participant) (otherParticipants : List Participant)
    (baseSystemPrompt : Option String) : String :=
  let otherNames := String.intercalate ", " (otherParticipants.map fun p => p.name ++ " (" ++ p.model ++ ")")
  "CRITICAL IDENTITY INSTRUCTIONS:\n- You are " ++ participant.name ++ " running " ++ participant.model
    ++ "\n- You are NOT any of the other participants: " ++ otherNames
    ++ "\n- Always maintain your identity as " ++ participant.name
    ++ "\n- Never confuse yourself with responses from other participants\n\nMULTI-AI COLLABORATION:\nYou are participating in a multi-AI conversation with: " ++ otherNames
    ++ "\nEach participant responds in sequence. You can see and reference other participants\x27 responses.\n\n"
    ++ (match participant.systemPrompt with
        | some s => if s = "" then "" else "\nADDITIONAL INSTRUCTIONS:\n" ++ s
        | none => "")
    ++ "\n"
    ++ (match baseSystemPrompt with
        | some s => if s = "" then "" else "\nBASE SYSTEM PROMPT:\n" ++ s
        | none => "")

/-- One content block of an Anthropic message: text, or a base64 image. -/
inductive AnthBlock where
  | text (s : String)
  | image (mediaType : String) (data : String)
deriving DecidableEq, Repr

/-- The content of an Anthropic message: a plain string or a block list. -/
inductive AnthContent where
  | text (s : String)
  | blocks (bs : List AnthBlock)
deriving DecidableEq, Repr

/-- One message of an Anthropic request. -/
structure AnthMsg where
  role : String
  content : AnthContent
deriving DecidableEq, Repr

/-- The data-URL match `^data:([^;]+);base64,(.+)$` of the source:
a `data:` scheme, a non-empty media type up to the first semicolon,
the literal `;base64,`, and a non-empty remainder.  (The remainder is
modelled as any non-empty string.) -/
def parseDataUrl (s : String) : Option (String × String) :=
  if s.startsWith "data:" then
    let rest := s.drop 5
    let mt := rest.takeWhile (fun c => c ≠ ';')
    let after := rest.drop mt.length
    if mt.length > 0 ∧ after.startsWith ";base64," then
      let data := after.drop 8
      if data.length > 0 then some (mt, data) else none
    else none
  else none

/-- The image blocks built from a user turn's attached files: only files
whose type starts with `image/` and whose content matches the data-URL
pattern contribute. -/
def imageBlocks (files : List AttachedFile) : List AnthBlock :=
  files.filterMap fun f =>
    if f.ftype.startsWith "image/" then
      (parseDataUrl f.content).map fun md => AnthBlock.image md.1 md.2
    else none

/-- The attribution prefixing of the source
(`msg.attribution ? `[attr]: content` : msg.content`): a truthy
attribution prefixes the content with `[name]: `. -/
def attrText (attribution : Option String) (content : String) : String :=
  match attribution with
  | some a => if a = "" then content else "[" ++ a ++ "]: " ++ content
  | none => content

/-- The per-message Anthropic mapping (the `forEach` body of
`handleAnthropicParticipant`): a user turn with attached files becomes a
block list (collapsed back to plain text when no image parsed); every
other turn passes through with the attribution prefix applied when the
attribution is truthy. -/
def mapAnthMsg (msg : Turn) : AnthMsg :=
  if msg.role = "user" ∧ msg.attachedFiles ≠ [] then
    let content := AnthBlock.text msg.content :: imageBlocks msg.attachedFiles
    if content.length = 1 then ⟨"user", AnthContent.text msg.content⟩
    else ⟨"user", AnthContent.blocks content⟩
  else ⟨msg.role, AnthContent.text (attrText msg.attribution msg.content)⟩

/-- Whether extended thinking is used for a participant:
`participant.anthropic?.extendedThinking ?? extendedThinking`, with the
request-level value falsy when absent. -/
def useThinking (p : Participant) (ext : Option Bool) : Bool :=
  match p.extendedThinking with
  | some b => b
  | none => ext.getD false

/-- The resolved thinking budget:
`participant.anthropic?.budgetTokens ?? Math.min(budgetTokens || 2000, (participant.maxTokens || 32000) - 100)`. -/
def thinkBudget (p : Participant) (reqBudget : Option Int) : Int :=
  match p.budgetTokens with
  | some b => b
  | none => min (orNum reqBudget 2000) (orNum p.maxTokens 32000 - 100)

/-- The Anthropic request assembled by `handleAnthropicParticipant`:
model, max tokens, mapped messages, system prompt, temperature, and the
thinking budget when enabled. -/
structure AnthropicReq where
  model : String
  maxTokens : Int
  messages : List AnthMsg
  system : String
  temperature : ℚ
  thinking : Option Int
deriving DecidableEq, Repr

/-- Builds the Anthropic request (source lines mapping history, pushing
the synthetic assistant prefill turn for the last participant, resolving
thinking and temperature). -/
def buildAnthropicReq (p : Participant) (hist : List Turn) (sys : String)
    (prefill : Option String) (isLast : Bool) (ext : Option Bool) (reqBudget : Option Int) :
    AnthropicReq :=
  let msgs := hist.map mapAnthMsg
  let msgs := if truthyS prefill && isLast then msgs ++ [⟨"assistant", AnthContent.text (prefill.getD "")⟩] else msgs
  let thinking := useThinking p ext
  { model := p.model
    maxTokens := orNum p.maxTokens 64000
    messages := msgs
    system := sys
    temperature := if thinking then 1 else p.temperature.getD (9/10)
    thinking := if thinking then some (thinkBudget p reqBudget) else none }

/-- A provider-native event of the Anthropic stream: a text content
delta, a thinking delta, or anything else. -/
inductive AnthChunk where
  | textDelta (s : String)
  | thinkingDelta (s : String)
  | other
deriving DecidableEq, Repr

/-- The oracle for one Anthropic adapter call: an error thrown at stream
creation, the chunks the stream yields, and an error thrown during
iteration after those chunks. -/
structure AnthStream where
  createError : Option String := none
  chunks : List AnthChunk := []
  iterError : Option String := none
deriving DecidableEq, Repr

/-- A canonical stream event pushed to the client (`flush`): a content
chunk, an error, or the completion marker. -/
inductive Event where
  | chunk (participant : String) (model : String) (provider : String) (content : String)
  | error (participant : Option String) (message : String)
  | complete
deriving DecidableEq, Repr

/-- The chunk event a participant emits for a piece of content. -/
def chunkEvent (p : Participant) (content : String) : Event :=
  Event.chunk p.name p.model p.provider content

/-- The Anthropic stream consumption loop: a non-empty text delta is
accumulated and emitted; a thinking delta is emitted wrapped in the
THINKING marker without being accumulated; everything else is ignored.
Returns the final accumulator and the emitted events. -/
def anthConsume (p : Participant) : String → List AnthChunk → String × List Event
  | acc, [] => (acc, [])
  | acc, AnthChunk.textDelta s :: rest =>
      if s = "" then anthConsume p acc rest
      else
        let r := anthConsume p (acc ++ s) rest
        (r.1, chunkEvent p s :: r.2)
  | acc, AnthChunk.thinkingDelta s :: rest =>
      let r := anthConsume p acc rest
      (r.1, chunkEvent p ("[THINKING]" ++ s ++ "[/THINKING]") :: r.2)
  | acc, AnthChunk.other :: rest => anthConsume p acc rest

/-- The outcome of one Anthropic adapter call: the provider request it
built, the events it flushed, and either the new history or the error
it threw. -/
structure AnthRun where
  req : AnthropicReq
  events : List Event
  result : Except String (List Turn)
deriving Repr

/-- The adapter `handleAnthropicParticipant`: builds the request; on successful
stream creation echoes the prefill chunk for the last participant, seeds
the accumulator with the prefill (regardless of position), consumes the
stream, and on success appends the accumulated reply to history with the
participant's name as attribution. -/
def handleAnthropicParticipant (p : Participant) (hist : List Turn) (sys : String)
    (prefill : Option String) (isLast : Bool) (ext : Option Bool) (reqBudget : Option Int)
    (stream : AnthStream) : AnthRun :=
  let req := buildAnthropicReq p hist sys prefill isLast ext reqBudget
  match stream.createError with
  | some e => ⟨req, [], Except.error e⟩
  | none =>
    let echo : List Event := if truthyS prefill && isLast then [chunkEvent p (prefill.getD "")] else []
    let r := anthConsume p (prefill.getD "") stream.chunks
    match stream.iterError with
    | some e => ⟨req, echo ++ r.2, Except.error e⟩
    | none => ⟨req, echo ++ r.2, Except.ok (hist ++ [⟨"assistant", r.1, some p.name, []⟩])⟩

/-- One input message of an OpenAI Responses request: a user message
(an `input_text` block) or an assistant message (plain content). -/
inductive OAIInput where
  | userMsg (text : String)
  | assistantMsg (content : String)
deriving DecidableEq, Repr

/-- The per-message OpenAI mapping (the `for` body of
`handleOpenAIParticipant`): user turns pass through as `input_text`
(attribution and attachments ignored), assistant turns get the
attribution prefix when truthy, any other role is dropped. -/
def mapOAIMsg (msg : Turn) : Option OAIInput :=
  if msg.role = "user" then some (OAIInput.userMsg msg.content)
  else if msg.role = "assistant" then some (OAIInput.assistantMsg (attrText msg.attribution msg.content))
  else none

/-- The OpenAI request configuration assembled by
`handleOpenAIParticipant`. -/
structure OAIConfig where
  model : String
  maxOutputTokens : Int
  temperature : ℚ
  instructions : String
  input : List OAIInput
  reasoning : Option String
deriving DecidableEq, Repr

/-- A provider-native event of the OpenAI stream: an output text delta
or anything else. -/
inductive OAIEvent where
  | textDelta (s : String)
  | other
deriving DecidableEq, Repr

/-- The oracle for one OpenAI adapter call. -/
structure OAIStream where
  createError : Option String := none
  events : List OAIEvent := []
  iterError : Option String := none
deriving DecidableEq, Repr

/-- The OpenAI stream consumption loop: every output text delta (empty
ones included) is accumulated and emitted. -/
def oaiConsume (p : Participant) : String → List OAIEvent → String × List Event
  | acc, [] => (acc, [])
  | acc, OAIEvent.textDelta s :: rest =>
      let r := oaiConsume p (acc ++ s) rest
      (r.1, chunkEvent p s :: r.2)
  | acc, OAIEvent.other :: rest => oaiConsume p acc rest

/-- The outcome of one OpenAI adapter call. -/
structure OAIRun where
  config : OAIConfig
  events : List Event
  result : Except String (List Turn)
deriving Repr

/-- The adapter `handleOpenAIParticipant`: builds the configuration, consumes the
stream, and on success appends the accumulated reply to history with the
participant's name as attribution.  The `prefill` and `isLast`
parameters are accepted but never used, exactly as in the source. -/
def handleOpenAIParticipant (p : Participant) (hist : List Turn) (sys : String)
    (prefill : Option String) (isLast : Bool) (stream : OAIStream) : OAIRun :=
  let config : OAIConfig :=
    { model := p.model
      maxOutputTokens := orNum p.maxTokens 16200
      temperature := p.temperature.getD (9/10)
      instructions := sys
      input := hist.filterMap mapOAIMsg
      reasoning := p.reasoning }
  match stream.createError with
  | some e => ⟨config, [], Except.error e⟩
  | none =>
    let r := oaiConsume p "" stream.events
    match stream.iterError with
    | some e => ⟨config, r.2, Except.error e⟩
    | none => ⟨config, r.2, Except.ok (hist ++ [⟨"assistant", r.1, some p.name, []⟩])⟩

/-- An inbound raw message of the request body (`messages` array):
its `type` field (`mtype` here), content, optional `participant_name`
and `model`, and attached files. -/
structure RawMessage where
  mtype : String
  content : String
  participant_name : Option String := none
  model : Option String := none
  attachedFiles : List AttachedFile := []
deriving DecidableEq, Repr

/-- The `processedMessages` construction of `POST`: keep only user and
assistant messages; user messages keep their attachments; assistant
messages get the attribution `participant_name || model || "Assistant"`. -/
def processMessages (msgs : List RawMessage) : List Turn :=
  (msgs.filter fun m => m.mtype = "user" ∨ m.mtype = "assistant").map fun m =>
    if m.mtype = "user" then
      ⟨"user", m.content, none, m.attachedFiles⟩
    else
      ⟨"assistant", m.content, some (orStr m.participant_name (orStr m.model "Assistant")), m.attachedFiles⟩

/-- The parsed JSON body of a `POST` request.  A missing `participants`
field is `none`. -/
structure SynergyRequest where
  messages : List RawMessage := []
  participants : Option (List Participant) := none
  openaiKey : Option String := none
  anthropicKey : Option String := none
  systemPrompt : Option String := none
  extendedThinking : Option Bool := none
  budgetTokens : Option Int := none
  prefillContent : Option String := none
deriving Repr

/-- The request-level context threaded through the orchestration loop. -/
structure RunCtx where
  participants : List Participant
  systemPrompt : Option String := none
  extendedThinking : Option Bool := none
  budgetTokens : Option Int := none
  prefillContent : Option String := none
deriving Repr

/-- The context extracted from a request (a missing participants list
behaves as empty, though validation rejects it before the loop runs). -/
def SynergyRequest.ctx (req : SynergyRequest) : RunCtx :=
  ⟨req.participants.getD [], req.systemPrompt, req.extendedThinking,
   req.budgetTokens, req.prefillContent⟩

/-- The in-band error event flushed when a participant's adapter call
throws: `❌ ${name} error: ${message}`. -/
def errorEvent (name : String) (msg : String) : Event :=
  Event.error (some name) ("❌ " ++ name ++ " error: " ++ msg)

/-- The per-participant stream oracles of one run. -/
structure Behavior where
  anth : AnthStream := {}
  oai : OAIStream := {}
deriving Repr

/-- One iteration of the orchestration loop for participant `p` at index
`i`: build the system prompt from the other participants, dispatch to
the adapter matching the provider (guarded, as in the source, by the
corresponding client having been constructed, i.e. by some participant
of the list using that provider); on success the adapter's new history
is kept, on error an error event naming the participant is appended and
the history is left unchanged; a participant matching neither provider
does nothing. -/
def stepParticipant (ctx : RunCtx) (i : Nat) (p : Participant) (hist : List Turn)
    (b : Behavior) : List Event × List Turn :=
  let otherParticipants := (ctx.participants.enum.filter fun x => x.1 != i).map fun x => x.2
  let sys := generateSystemPrompt p otherParticipants ctx.systemPrompt
  let isLast := i == ctx.participants.length - 1
  if p.provider == "anthropic" && (ctx.participants.any fun q => q.provider == "anthropic") then
    let r := handleAnthropicParticipant p hist sys ctx.prefillContent isLast
      ctx.extendedThinking ctx.budgetTokens b.anth
    match r.result with
    | Except.ok h2 => (r.events, h2)
    | Except.error m => (r.events ++ [errorEvent p.name m], hist)
  else if p.provider == "openai" && (ctx.participants.any fun q => q.provider == "openai") then
    let r := handleOpenAIParticipant p hist sys ctx.prefillContent isLast b.oai
    match r.result with
    | Except.ok h2 => (r.events, h2)
    | Except.error m => (r.events ++ [errorEvent p.name m], hist)
  else ([], hist)

/-- The orchestration loop over an indexed participant list: each step
consumes the history the previous steps produced; events concatenate in
order. -/
def runLoop (ctx : RunCtx) (env : Nat → Behavior) :
    List (Nat × Participant) → List Turn → List Event × List Turn
  | [], hist => ([], hist)
  | (i, p) :: rest, hist =>
      let s := stepParticipant ctx i p hist (env i)
      let r := runLoop ctx env rest s.2
      (s.1 ++ r.1, r.2)

/-- The outcome of `POST`: an HTTP 400 with a JSON error body, or the
streamed event list. -/
inductive PostResult where
  | badRequest (error : String)
  | streamResp (events : List Event)
deriving DecidableEq, Repr

/-- The validation of `POST`: missing or empty participants, a used
provider with a falsy key — each yields the 400 error message of the
source; otherwise `none`. -/
def validationError (req : SynergyRequest) : Option String :=
  let ps := req.participants.getD []
  if ps.length < 1 then some "At least 1 participant required"
  else if (ps.any fun p => p.provider == "openai") && !truthyS req.openaiKey then
    some "OpenAI API key is required for OpenAI models"
  else if (ps.any fun p => p.provider == "anthropic") && !truthyS req.anthropicKey then
    some "Anthropic API key is required for Anthropic models"
  else none

/-- The handler `POST`: validate, then run every participant in order over the
processed messages and close the stream with the single completion
event. -/
def POST (req : SynergyRequest) (env : Nat → Behavior) : PostResult :=
  match validationError req with
  | some e => PostResult.badRequest e
  | none =>
      let ctx := req.ctx
      let processed := processMessages req.messages
      PostResult.streamResp ((runLoop ctx env ctx.participants.enum processed).1 ++ [Event.complete])

/-- The assistant turn a participant's step appends to history when its
adapter call succeeds (`none` when it fails or is skipped).  The content
depends only on the oracle and the prefill, never on the history. -/
def replyTurn (ctx : RunCtx) (b : Behavior) (p : Participant) : Option Turn :=
  if p.provider == "anthropic" && (ctx.participants.any fun q => q.provider == "anthropic") then
    match b.anth.createError, b.anth.iterError with
    | none, none =>
        some ⟨"assistant", (anthConsume p (ctx.prefillContent.getD "") b.anth.chunks).1, some p.name, []⟩
    | _, _ => none
  else if p.provider == "openai" && (ctx.participants.any fun q => q.provider == "openai") then
    match b.oai.createError, b.oai.iterError with
    | none, none => some ⟨"assistant", (oaiConsume p "" b.oai.events).1, some p.name, []⟩
    | _, _ => none
  else none

/-- The history the run holds after the first `n` participants: the
history passed to the `n`-th participant's adapter (0-indexed). -/
def historyAt (ctx : RunCtx) (env : Nat → Behavior) (init : List Turn) (n : Nat) : List Turn :=
  (runLoop ctx env (ctx.participants.enum.take n) init).2

/-- The condition under which a participant's dispatched adapter call
throws: its provider's branch is taken and the oracle reports an error
at stream creation or during iteration. -/
def handlerFailed (ctx : RunCtx) (p : Participant) (b : Behavior) : Prop :=
  (p.provider = "anthropic"
     ∧ (ctx.participants.any fun q => q.provider == "anthropic") = true
     ∧ (b.anth.createError ≠ none ∨ b.anth.iterError ≠ none))
  ∨ (p.provider = "openai"
     ∧ (ctx.participants.any fun q => q.provider == "openai") = true
     ∧ (b.oai.createError ≠ none ∨ b.oai.iterError ≠ none))

/-- Concrete fixture: a single OpenAI participant. -/
def pC1 : Participant := { name := "Bot", provider := "openai", model := "gpt-5" }

/-- Concrete fixture: a request whose only (hence last) participant is
the OpenAI participant, with a non-empty prefill. -/
def reqC1 : SynergyRequest :=
  { participants := some [pC1], openaiKey := some "k", prefillContent := some "PRE" }

/-- Concrete fixture: the OpenAI stream yields one text delta `x`. -/
def envC1 : Nat → Behavior := fun _ => { oai := { events := [OAIEvent.textDelta "x"] } }

/-- Concrete fixture: Anthropic participant A. -/
def pA : Participant := { name := "A", provider := "anthropic", model := "claude" }

/-- Concrete fixture: Anthropic participant B. -/
def pB : Participant := { name := "B", provider := "anthropic", model := "claude" }

/-- Concrete fixture: a run context with the two Anthropic participants
A and B and no prefill. -/
def ctxC2 : RunCtx := { participants := [pA, pB] }

/-- Concrete fixture: participant A's stream yields a partial text delta
and then throws; participant B's stream is empty and succeeds. -/
def envFail : Nat → Behavior := fun i =>
  if i = 0 then { anth := { chunks := [AnthChunk.textDelta "par"], iterError := some "boom" } }
  else {}

/-- Concrete fixture: every stream succeeds with no output. -/
def envEmpty : Nat → Behavior := fun _ => {}

/-- Concrete fixture: an Anthropic participant with a configured
temperature of 1/2, a 32000 token ceiling, and no participant-level
thinking options. -/
def pC6 : Participant :=
  { name := "C", provider := "anthropic", model := "m",
    temperature := some (1/2), maxTokens := some 32000 }

/-- Concrete fixture: a participant whose provider matches neither
adapter. -/
def pW : Participant := { name := "W", provider := "mistral", model := "m" }

/-- Concrete fixture: a request whose only participant is the unknown-
provider participant, with no API keys at all. -/
def reqW : SynergyRequest := { participants := some [pW] }

/-- The concatenation of the non-empty text deltas of an Anthropic
stream (what the accumulator gains during consumption). -/
def textConcat : List AnthChunk → String
  | [] => ""
  | AnthChunk.textDelta s :: rest => s ++ textConcat rest
  | AnthChunk.thinkingDelta _ :: rest => textConcat rest
  | AnthChunk.other :: rest => textConcat rest

/-- The concatenation of the text deltas of an OpenAI stream. -/
def oaiTextConcat : List OAIEvent → String
  | [] => ""
  | OAIEvent.textDelta s :: rest => s ++ oaiTextConcat rest
  | OAIEvent.other :: rest => oaiTextConcat rest

theorem anthConsume_fst (p : Participant) (l : List AnthChunk) :
    ∀ acc, (anthConsume p acc l).1 = acc ++ textConcat l := by
  induction l with
  | nil => intro acc; simp [anthConsume, textConcat]
  | cons c rest ih =>
      intro acc
      cases c with
      | textDelta s =>
          by_cases hs : s = ""

          · simp [anthConsume, textConcat, hs, ih]
          · simp [anthConsume, textConcat, hs, ih, String.append_assoc]
      | thinkingDelta s => simp [anthConsume, textConcat, ih]
      | other => simp [anthConsume, textConcat, ih]

theorem oaiConsume_fst (p : Participant) (l : List OAIEvent) :
    ∀ acc, (oaiConsume p acc l).1 = acc ++ oaiTextConcat l := by
  induction l with
  | nil => intro acc; simp [oaiConsume, oaiTextConcat]
  | cons c rest ih =>
      intro acc
      cases c with
      | textDelta s => simp [oaiConsume, oaiTextConcat, ih, String.append_assoc]
      | other => simp [oaiConsume, oaiTextConcat, ih]

theorem stepParticipant_snd (ctx : RunCtx) (i : Nat) (p : Participant) (hist : List Turn)
    (b : Behavior) :
    (stepParticipant ctx i p hist b).2 = hist ++ (replyTurn ctx b p).toList := by
  unfold stepParticipant replyTurn handleAnthropicParticipant handleOpenAIParticipant
  split
  · cases hc : b.anth.createError with
    | some e => simp [hc]
    | none =>
        cases hi : b.anth.iterError with
        | some e => simp [hc, hi]
        | none => simp [hc, hi]
  · split
    · cases hc : b.oai.createError with
      | some e => simp [hc]
      | none =>
          cases hi : b.oai.iterError with
          | some e => simp [hc, hi]
          | none => simp [hc, hi]
    · simp

theorem runLoop_snd (ctx : RunCtx) (env : Nat → Behavior) (l : List (Nat × Participant)) :
    ∀ hist, (runLoop ctx env l hist).2
      = hist ++ l.filterMap (fun x => replyTurn ctx (env x.1) x.2) := by
  induction l with
  | nil => intro hist; simp [runLoop]
  | cons x rest ih =>
      intro hist
      obtain ⟨i, p⟩ := x
      simp only [runLoop, ih, stepParticipant_snd, List.filterMap_cons]
      cases h : replyTurn ctx (env i) p <;> simp [h]

theorem runLoop_append (ctx : RunCtx) (env : Nat → Behavior) (l₁ l₂ : List (Nat × Participant)) :
    ∀ hist, runLoop ctx env (l₁ ++ l₂) hist
      = ((runLoop ctx env l₁ hist).1 ++ (runLoop ctx env l₂ (runLoop ctx env l₁ hist).2).1,
         (runLoop ctx env l₂ (runLoop ctx env l₁ hist).2).2) := by
  induction l₁ with
  | nil => intro hist; simp [runLoop]
  | cons x rest ih =>
      intro hist
      obtain ⟨i, p⟩ := x
      simp [runLoop, ih]

theorem anthConsume_no_complete (p : Participant) (l : List AnthChunk) :
    ∀ acc, Event.complete ∉ (anthConsume p acc l).2 := by
  induction l with
  | nil => intro acc; simp [anthConsume]
  | cons c rest ih =>
      intro acc
      cases c with
      | textDelta s =>
          by_cases hs : s = ""
          · simp [anthConsume, hs, ih]
          · simp [anthConsume, hs, ih, chunkEvent]
      | thinkingDelta s => simp [anthConsume, ih, chunkEvent]
      | other => simp [anthConsume, ih]

theorem oaiConsume_no_complete (p : Participant) (l : List OAIEvent) :
    ∀ acc, Event.complete ∉ (oaiConsume p acc l).2 := by
  induction l with
  | nil => intro acc; simp [oaiConsume]
  | cons c rest ih =>
      intro acc
      cases c with
      | textDelta s => simp [oaiConsume, ih, chunkEvent]
      | other => simp [oaiConsume, ih]

theorem stepParticipant_no_complete (ctx : RunCtx) (i : Nat) (p : Participant) (hist : List Turn)
    (b : Behavior) :
    Event.complete ∉ (stepParticipant ctx i p hist b).1 := by
  unfold stepParticipant handleAnthropicParticipant handleOpenAIParticipant
  split
  · cases hc : b.anth.createError with
    | some e => simp [hc, errorEvent]
    | none =>
        cases hi : b.anth.iterError with
        | some e =>
            simp only [hc, hi]
            split <;> simp [errorEvent, chunkEvent, anthConsume_no_complete]
        | none =>
            simp only [hc, hi]
            split <;> simp [chunkEvent, anthConsume_no_complete]
  · split
    · cases hc : b.oai.createError with
      | some e => simp [hc, errorEvent]
      | none =>
          cases hi : b.oai.iterError with
          | some e => simp [hc, hi, errorEvent, oaiConsume_no_complete]
          | none => simp [hc, hi, oaiConsume_no_complete]
    · simp

theorem runLoop_no_complete (ctx : RunCtx) (env : Nat → Behavior)
    (l : List (Nat × Participant)) :
    ∀ hist, Event.complete ∉ (runLoop ctx env l hist).1 := by
  induction l with
  | nil => intro hist; simp [runLoop]
  | cons x rest ih =>
      intro hist
      obtain ⟨i, p⟩ := x
      simp [runLoop, ih, stepParticipant_no_complete]

theorem replyTurn_none_of_failed (ctx : RunCtx) (p : Participant) (b : Behavior)
    (h : handlerFailed ctx p b) : replyTurn ctx b p = none := by
  unfold replyTurn
  rcases h with ⟨hp, hany, herr⟩ | ⟨hp, hany, herr⟩
  · rw [if_pos (by simp [hp, hany])]
    rcases herr with herr | herr
    · cases hc : b.anth.createError with
      | none => exact absurd hc herr
      | some e => cases b.anth.iterError <;> simp [hc]
    · cases hi : b.anth.iterError with
      | none => exact absurd hi herr
      | some e => cases b.anth.createError <;> simp [hi]
  · have hne : (p.provider == "anthropic") = false := by simp [hp]
    rw [if_neg (by simp [hne]), if_pos (by simp [hp, hany])]
    rcases herr with herr | herr
    · cases hc : b.oai.createError with
      | none => exact absurd hc herr
      | some e => cases b.oai.iterError <;> simp [hc]
    · cases hi : b.oai.iterError with
      | none => exact absurd hi herr
      | some e => cases b.oai.createError <;> simp [hi]

theorem step_error_event_of_failed (ctx : RunCtx) (i : Nat) (p : Participant)
    (hist : List Turn) (b : Behavior) (h : handlerFailed ctx p b) :
    ∃ m, errorEvent p.name m ∈ (stepParticipant ctx i p hist b).1 := by
  unfold stepParticipant handleAnthropicParticipant handleOpenAIParticipant
  rcases h with ⟨hp, hany, herr⟩ | ⟨hp, hany, herr⟩
  · rw [if_pos (by simp [hp, hany])]
    cases hc : b.anth.createError with
    | some e => exact ⟨e, by simp [hc]⟩
    | none =>
        cases hi : b.anth.iterError with
        | some e => exact ⟨e, by simp [hc, hi]⟩
        | none => simp [hc, hi] at herr
  · have hne : (p.provider == "anthropic") = false := by simp [hp]
    rw [if_neg (by simp [hne]), if_pos (by simp [hp, hany])]
    cases hc : b.oai.createError with
    | some e => exact ⟨e, by simp [hc]⟩
    | none =>
        cases hi : b.oai.iterError with
        | some e => exact ⟨e, by simp [hc, hi]⟩
        | none => simp [hc, hi] at herr

/-- Claim C3: for every request that passes validation, the streamed
event list is the loop's events followed by exactly one completion
event, so `complete` is emitted exactly once, last — after every
participant has been attempted — no matter how many participants
failed (the loop's own events never contain `complete`). -/
theorem C3_single_completion (req : SynergyRequest) (env : Nat → Behavior) (evs : List Event)
    (h : POST req env = PostResult.streamResp evs) :
    evs = (runLoop req.ctx env req.ctx.participants.enum (processMessages req.messages)).1
            ++ [Event.complete]
    ∧ evs.count Event.complete = 1
    ∧ evs.getLast? = some Event.complete := by
  unfold POST at h
  cases hv : validationError req with
  | some e => rw [hv] at h; cases h
  | none =>
      rw [hv] at h
      injection h with h
      subst h
      refine ⟨rfl, ?_, List.getLast?_concat _⟩
      rw [List.count_append]
      rw [List.count_eq_zero.mpr (runLoop_no_complete req.ctx env _ _)]
      rfl

/-- Witness for C3 at a concrete input: a request with one unknown-
provider participant and no keys passes validation and streams exactly
the completion event. -/
theorem C3_single_completion_witness :
    [Event.complete]
        = (runLoop reqW.ctx envEmpty reqW.ctx.participants.enum (processMessages reqW.messages)).1
            ++ [Event.complete]
      ∧ [Event.complete].count Event.complete = 1
      ∧ [Event.complete].getLast? = some Event.complete :=
  C3_single_completion reqW envEmpty [Event.complete] (by rfl)

/-- Claim C4: `POST` returns an HTTP 400 (before any streaming body)
exactly when the participants list is missing or empty, or some
participant uses provider `openai` with a falsy `openaiKey`, or some
participant uses provider `anthropic` with a falsy `anthropicKey`;
otherwise it returns the streaming response. -/
theorem C4_validation_iff (req : SynergyRequest) (env : Nat → Behavior) :
    (∃ e, POST req env = PostResult.badRequest e) ↔
      ((req.participants.getD []).length < 1
       ∨ (((req.participants.getD []).any fun p => p.provider == "openai") = true
            ∧ truthyS req.openaiKey = false)
       ∨ (((req.participants.getD []).any fun p => p.provider == "anthropic") = true
            ∧ truthyS req.anthropicKey = false)) := by
  have h1 : (∃ e, POST req env = PostResult.badRequest e) ↔ (validationError req).isSome := by
    unfold POST
    cases hv : validationError req <;> simp [hv]
  rw [h1]
  unfold validationError
  dsimp only
  split
  · rename_i hlen
    simp [hlen]
  · rename_i hlen
    split
    · rename_i hoa
      simp only [Option.isSome_some, true_iff]
      right; left
      simpa using hoa
    · rename_i hoa
      split
      · rename_i han
        simp only [Option.isSome_some, true_iff]
        right; right
        simpa using han
      · rename_i han
        simp only [Option.isSome_none, Bool.false_eq_true, false_iff]
        rintro (hbad | ⟨ha, hb⟩ | ⟨ha, hb⟩)
        · exact hlen hbad
        · exact absurd (by simp [ha, hb]) hoa
        · exact absurd (by simp [ha, hb]) han

/-- Claim C5: within one run the history is append-only, the history
held after the first `n` participants (which is exactly what the `n`-th
participant's step receives, by the third equation decomposing the full
run at position `n`) equals the processed initial history followed, in
participant order, by one attributed assistant turn per participant
among the first `n` whose adapter call succeeded (`replyTurn`). -/
theorem C5_history_invariant (ctx : RunCtx) (env : Nat → Behavior) (init : List Turn) (n : Nat) :
    historyAt ctx env init n
      = init ++ ((ctx.participants.enum.take n).filterMap fun x => replyTurn ctx (env x.1) x.2)
    ∧ (∃ ts, historyAt ctx env init (n + 1) = historyAt ctx env init n ++ ts)
    ∧ runLoop ctx env ctx.participants.enum init
      = ((runLoop ctx env (ctx.participants.enum.take n) init).1
           ++ (runLoop ctx env (ctx.participants.enum.drop n) (historyAt ctx env init n)).1,
         (runLoop ctx env (ctx.participants.enum.drop n) (historyAt ctx env init n)).2) := by
  refine ⟨runLoop_snd ctx env _ init, ?_, ?_⟩
  · refine ⟨(ctx.participants.enum[n]?.toList).filterMap fun x => replyTurn ctx (env x.1) x.2, ?_⟩
    unfold historyAt
    rw [runLoop_snd, runLoop_snd, List.take_succ, List.filterMap_append, List.append_assoc]
  · have h := runLoop_append ctx env (ctx.participants.enum.take n)
      (ctx.participants.enum.drop n) init
    rw [List.take_append_drop] at h
    exact h

/-- Claim C8: a participant whose provider is neither `openai` nor
`anthropic` is silently skipped — its step emits no event (neither chunk
nor error) and leaves history unchanged, the loop proceeds directly to
the remaining participants — and a request containing only such a
participant passes validation with no API key at all. -/
theorem C8_unknown_provider_skipped (ctx : RunCtx) (env : Nat → Behavior) (i : Nat)
    (p : Participant) (hist : List Turn) (rest : List (Nat × Participant))
    (h1 : p.provider ≠ "openai") (h2 : p.provider ≠ "anthropic") :
    stepParticipant ctx i p hist (env i) = ([], hist)
    ∧ runLoop ctx env ((i, p) :: rest) hist = runLoop ctx env rest hist
    ∧ (∀ msgs, validationError { messages := msgs, participants := some [p] } = none) := by
  have hstep : stepParticipant ctx i p hist (env i) = ([], hist) := by
    unfold stepParticipant
    rw [if_neg (by simp [h2]), if_neg (by simp [h1])]
  refine ⟨hstep, ?_, ?_⟩
  · simp [runLoop, hstep]
  · intro msgs
    unfold validationError
    simp [h1, h2]

/-- Witness for C8 at a concrete input: the unknown-provider fixture
participant is skipped and validates with no keys. -/
theorem C8_unknown_provider_skipped_witness :
    stepParticipant ctxC2 0 pW [] (envEmpty 0) = ([], [])
    ∧ runLoop ctxC2 envEmpty [(0, pW)] [] = runLoop ctxC2 envEmpty [] []
    ∧ (∀ msgs, validationError { messages := msgs, participants := some [pW] } = none) :=
  C8_unknown_provider_skipped ctxC2 envEmpty 0 pW [] [] (by decide) (by decide)

/-- Claim C9: for a non-last Anthropic participant with a non-empty
prefill and a successful stream, the accumulator is still seeded with
the prefill — the turn appended to history begins with the prefill
text — even though the provider request contains no injected assistant
turn and no prefill echo chunk is emitted. -/
theorem C9_nonlast_prefill_seeds_accumulator (p : Participant) (hist : List Turn) (sys : String)
    (pf : Option String) (ext : Option Bool) (bud : Option Int) (s : AnthStream)
    (hpf : truthyS pf = true) (hc : s.createError = none) (hi : s.iterError = none) :
    (handleAnthropicParticipant p hist sys pf false ext bud s).result
      = Except.ok (hist ++ [⟨"assistant", pf.getD "" ++ textConcat s.chunks, some p.name, []⟩])
    ∧ (handleAnthropicParticipant p hist sys pf false ext bud s).req.messages
      = hist.map mapAnthMsg
    ∧ (handleAnthropicParticipant p hist sys pf false ext bud s).events
      = (anthConsume p (pf.getD "") s.chunks).2 := by
  unfold handleAnthropicParticipant buildAnthropicReq
  simp [hc, hi, anthConsume_fst]

/-- Witness for C9 at a concrete input: participant A, not last, prefill
`PRE`, one text delta `x`: the appended reply is `PRExx`-free and equals
`PREx`, the request has no injected turn, and only the delta is
emitted. -/
theorem C9_nonlast_prefill_seeds_accumulator_witness :
    (handleAnthropicParticipant pA [] "" (some "PRE") false none none
        { chunks := [AnthChunk.textDelta "x"] }).result
      = Except.ok [⟨"assistant", "PRE" ++ textConcat [AnthChunk.textDelta "x"], some pA.name, []⟩]
    ∧ (handleAnthropicParticipant pA [] "" (some "PRE") false none none
        { chunks := [AnthChunk.textDelta "x"] }).req.messages
      = List.map mapAnthMsg []
    ∧ (handleAnthropicParticipant pA [] "" (some "PRE") false none none
        { chunks := [AnthChunk.textDelta "x"] }).events
      = (anthConsume pA "PRE" [AnthChunk.textDelta "x"]).2 :=
  C9_nonlast_prefill_seeds_accumulator pA [] "" (some "PRE") none none
    { chunks := [AnthChunk.textDelta "x"] } (by decide) rfl rfl

/-- Claim C10: whenever extended thinking is enabled — by the
participant-level flag, or by the request-level flag when the
participant-level one is unset — the Anthropic request's temperature is
forced to 1, regardless of the participant's configured temperature or
the 0.9 default, and the thinking budget is attached. -/
theorem C10_thinking_forces_temperature (p : Participant) (hist : List Turn) (sys : String)
    (pf : Option String) (isLast : Bool) (ext : Option Bool) (bud : Option Int)
    (h : p.extendedThinking = some true ∨ (p.extendedThinking = none ∧ ext = some true)) :
    (buildAnthropicReq p hist sys pf isLast ext bud).temperature = 1
    ∧ (buildAnthropicReq p hist sys pf isLast ext bud).thinking = some (thinkBudget p bud) := by
  have hu : useThinking p ext = true := by
    rcases h with h | ⟨ha, hb⟩ <;> simp [useThinking, *]
  unfold buildAnthropicReq
  simp [hu]

/-- Witness for C10 at a concrete input: the fixture participant with
configured temperature 1/2 and request-level thinking enabled gets
temperature 1. -/
theorem C10_thinking_forces_temperature_witness :
    (buildAnthropicReq pC6 [] "" none false (some true) none).temperature = 1
    ∧ (buildAnthropicReq pC6 [] "" none false (some true) none).thinking
      = some (thinkBudget pC6 none) :=
  C10_thinking_forces_temperature pC6 [] "" none false (some true) none
    (Or.inr ⟨rfl, rfl⟩)

/-- Claim C7: in both adapters' history mapping an assistant turn with a
truthy attribution is sent with its content prefixed `[name]: `;
unattributed assistant turns and user turns (with or without attached
files, and — for the OpenAI adapter — even attributed user turns) pass
through unprefixed; and the one synthetic assistant turn of the current
provider's own continuation, the prefill appended for the last
participant, is sent unprefixed. -/
theorem C7_attribution_prefixing (c a : String) (ha : a ≠ "") (att : Option String)
    (files : List AttachedFile) (p : Participant) (hist : List Turn) (sys : String)
    (pf : Option String) (ext : Option Bool) (bud : Option Int)
    (hpf : truthyS pf = true) :
    mapAnthMsg ⟨"assistant", c, some a, files⟩
      = ⟨"assistant", AnthContent.text ("[" ++ a ++ "]: " ++ c)⟩
    ∧ mapAnthMsg ⟨"assistant", c, none, files⟩ = ⟨"assistant", AnthContent.text c⟩
    ∧ (mapAnthMsg ⟨"user", c, none, files⟩ = ⟨"user", AnthContent.text c⟩
        ∨ ∃ bs, mapAnthMsg ⟨"user", c, none, files⟩
            = ⟨"user", AnthContent.blocks (AnthBlock.text c :: bs)⟩)
    ∧ mapOAIMsg ⟨"assistant", c, some a, files⟩
      = some (OAIInput.assistantMsg ("[" ++ a ++ "]: " ++ c))
    ∧ mapOAIMsg ⟨"assistant", c, none, files⟩ = some (OAIInput.assistantMsg c)
    ∧ mapOAIMsg ⟨"user", c, att, files⟩ = some (OAIInput.userMsg c)
    ∧ (buildAnthropicReq p hist sys pf true ext bud).messages.getLast?
      = some ⟨"assistant", AnthContent.text (pf.getD "")⟩ := by
  have hau : ("assistant" : String) ≠ "user" := by decide
  refine ⟨?_, ?_, ?_, ?_, ?_, ?_, ?_⟩
  · simp [mapAnthMsg, attrText, ha, hau]
  · simp [mapAnthMsg, attrText, hau]
  · by_cases hf : files = []
    · left; simp [mapAnthMsg, attrText, hf]
    · cases himg : imageBlocks files with
      | nil => left; simp [mapAnthMsg, hf, himg]
      | cons bhd btl =>
          right
          exact ⟨bhd :: btl, by simp [mapAnthMsg, hf, himg]⟩
  · simp [mapOAIMsg, attrText, ha]
  · simp [mapOAIMsg, attrText]
  · simp [mapOAIMsg]
  · simp [buildAnthropicReq, hpf, List.getLast?_concat]

/-- Witness for C7 at a concrete input: attribution `A`, content `hi`,
a prefill `PRE` for the last participant, empty file list. -/
theorem C7_attribution_prefixing_witness :
    mapAnthMsg ⟨"assistant", "hi", some "A", []⟩
      = ⟨"assistant", AnthContent.text ("[" ++ "A" ++ "]: " ++ "hi")⟩
    ∧ mapAnthMsg ⟨"assistant", "hi", none, []⟩ = ⟨"assistant", AnthContent.text "hi"⟩
    ∧ (mapAnthMsg ⟨"user", "hi", none, []⟩ = ⟨"user", AnthContent.text "hi"⟩
        ∨ ∃ bs, mapAnthMsg ⟨"user", "hi", none, []⟩
            = ⟨"user", AnthContent.blocks (AnthBlock.text "hi" :: bs)⟩)
    ∧ mapOAIMsg ⟨"assistant", "hi", some "A", []⟩
      = some (OAIInput.assistantMsg ("[" ++ "A" ++ "]: " ++ "hi"))
    ∧ mapOAIMsg ⟨"assistant", "hi", none, []⟩ = some (OAIInput.assistantMsg "hi")
    ∧ mapOAIMsg ⟨"user", "hi", none, []⟩ = some (OAIInput.userMsg "hi")
    ∧ (buildAnthropicReq pA [] "" (some "PRE") true none none).messages.getLast?
      = some ⟨"assistant", AnthContent.text ((some "PRE").getD "")⟩ :=
  C7_attribution_prefixing "hi" "A" (by decide) none [] pA [] "" (some "PRE") none none
    (by decide)

/-- Claim C1 counterexample: a run whose single (hence last) participant
uses the OpenAI adapter, with non-empty prefill `PRE`: the stream
contains no `PRE` chunk at all — the first content chunk is the
provider delta `x`, not the prefill — and even with `isLast = true` the
OpenAI adapter's request input contains no injected assistant turn; so
it is false that the last participant's adapter, whichever of the two
it is, injects and re-emits the prefill. -/
theorem C1_counterexample :
    POST reqC1 envC1
      = PostResult.streamResp [Event.chunk "Bot" "gpt-5" "openai" "x", Event.complete]
    ∧ (∀ e ∈ [Event.chunk "Bot" "gpt-5" "openai" "x", Event.complete],
         e ≠ Event.chunk "Bot" "gpt-5" "openai" "PRE")
    ∧ (handleOpenAIParticipant pC1 [] "" (some "PRE") true
        { events := [OAIEvent.textDelta "x"] }).config.input = [] :=
  ⟨by rfl, by decide, by rfl⟩

/-- Claim C1 as amended: the OpenAI adapter ignores the prefill and the
last-participant flag entirely (its outcome is identical to a call with
no prefill), a non-last Anthropic participant neither receives the
prefill in its request nor echoes it, and only a last Anthropic
participant gets the synthetic trailing assistant turn and re-emits the
prefill as its first content chunk. -/
theorem C1_amended_prefill (p : Participant) (hist : List Turn) (sys : String)
    (pf : Option String) (ext : Option Bool) (bud : Option Int)
    (hpf : truthyS pf = true) :
    (∀ (isLast : Bool) (s : OAIStream),
        handleOpenAIParticipant p hist sys pf isLast s
          = handleOpenAIParticipant p hist sys none false s)
    ∧ (∀ s : AnthStream,
        (handleAnthropicParticipant p hist sys pf false ext bud s).req.messages
          = hist.map mapAnthMsg
        ∧ (s.createError = none →
            (handleAnthropicParticipant p hist sys pf false ext bud s).events
              = (anthConsume p (pf.getD "") s.chunks).2))
    ∧ (∀ s : AnthStream,
        (handleAnthropicParticipant p hist sys pf true ext bud s).req.messages
          = hist.map mapAnthMsg ++ [⟨"assistant", AnthContent.text (pf.getD "")⟩]
        ∧ (s.createError = none →
            (handleAnthropicParticipant p hist sys pf true ext bud s).events
              = chunkEvent p (pf.getD "") :: (anthConsume p (pf.getD "") s.chunks).2)) := by
  refine ⟨fun isLast s => rfl, ?_, ?_⟩
  · intro s
    constructor
    · unfold handleAnthropicParticipant buildAnthropicReq
      cases s.createError <;> cases s.iterError <;> simp
    · intro hc
      unfold handleAnthropicParticipant
      cases hi : s.iterError <;> simp [hc, hi]
  · intro s
    constructor
    · unfold handleAnthropicParticipant buildAnthropicReq
      cases s.createError <;> cases s.iterError <;> simp [hpf]
    · intro hc
      unfold handleAnthropicParticipant
      cases hi : s.iterError <;> simp [hc, hi, hpf]

/-- Witness for the amended C1 at a concrete input: prefill `PRE`, one
Anthropic text delta `x`. -/
theorem C1_amended_prefill_witness :
    (∀ (isLast : Bool) (s : OAIStream),
        handleOpenAIParticipant pA [] "" (some "PRE") isLast s
          = handleOpenAIParticipant pA [] "" none false s)
    ∧ (∀ s : AnthStream,
        (handleAnthropicParticipant pA [] "" (some "PRE") false none none s).req.messages
          = List.map mapAnthMsg []
        ∧ (s.createError = none →
            (handleAnthropicParticipant pA [] "" (some "PRE") false none none s).events
              = (anthConsume pA ((some "PRE").getD "") s.chunks).2))
    ∧ (∀ s : AnthStream,
        (handleAnthropicParticipant pA [] "" (some "PRE") true none none s).req.messages
          = List.map mapAnthMsg [] ++ [⟨"assistant", AnthContent.text ((some "PRE").getD "")⟩]
        ∧ (s.createError = none →
            (handleAnthropicParticipant pA [] "" (some "PRE") true none none s).events
              = chunkEvent pA ((some "PRE").getD "")
                  :: (anthConsume pA ((some "PRE").getD "") s.chunks).2)) :=
  C1_amended_prefill pA [] "" (some "PRE") none none (by decide)

/-- Claim C2 counterexample: participant A (index 0) throws after a
partial delta; participant B then receives the unchanged history `[]`,
whereas had A succeeded with empty text B would have received one empty
attributed assistant turn — the two histories differ, though the error
event naming A is emitted as the claim says. -/
theorem C2_counterexample :
    historyAt ctxC2 envFail [] 1 ≠ historyAt ctxC2 envEmpty [] 1
    ∧ historyAt ctxC2 envFail [] 1 = []
    ∧ historyAt ctxC2 envEmpty [] 1 = [⟨"assistant", "", some "A", []⟩]
    ∧ errorEvent "A" "boom" ∈ (runLoop ctxC2 envFail ctxC2.participants.enum []).1 :=
  ⟨by decide, by rfl, by rfl, by decide⟩

/-- Claim C2 as amended: when participant K's adapter call throws, an
error event naming K is emitted, the loop continues with the remaining
participants, and the next participant receives history identical to
the history K itself received — nothing, in particular no partial text
accumulated from K's stream, is appended for K. -/
theorem C2_amended_error_isolation (ctx : RunCtx) (env : Nat → Behavior) (i : Nat)
    (p : Participant) (hist : List Turn) (rest : List (Nat × Participant))
    (h : handlerFailed ctx p (env i)) :
    (stepParticipant ctx i p hist (env i)).2 = hist
    ∧ (∃ m, errorEvent p.name m ∈ (stepParticipant ctx i p hist (env i)).1)
    ∧ runLoop ctx env ((i, p) :: rest) hist
      = ((stepParticipant ctx i p hist (env i)).1 ++ (runLoop ctx env rest hist).1,
         (runLoop ctx env rest hist).2) := by
  have hsnd : (stepParticipant ctx i p hist (env i)).2 = hist := by
    rw [stepParticipant_snd, replyTurn_none_of_failed ctx p (env i) h]
    simp
  refine ⟨hsnd, step_error_event_of_failed ctx i p hist (env i) h, ?_⟩
  simp only [runLoop, hsnd]

/-- Witness for the amended C2 at the concrete failing input of the
counterexample: participant A fails after a partial delta. -/
theorem C2_amended_error_isolation_witness :
    (stepParticipant ctxC2 0 pA [] (envFail 0)).2 = []
    ∧ (∃ m, errorEvent pA.name m ∈ (stepParticipant ctxC2 0 pA [] (envFail 0)).1)
    ∧ runLoop ctxC2 envFail [(0, pA)] []
      = ((stepParticipant ctxC2 0 pA [] (envFail 0)).1 ++ (runLoop ctxC2 envFail [] []).1,
         (runLoop ctxC2 envFail [] []).2) :=
  C2_amended_error_isolation ctxC2 envFail 0 pA [] []
    (Or.inl ⟨rfl, by decide, Or.inr (by decide)⟩)

/-- Claim C6 counterexample: with the participant-level budget unset, a
request-level budget of 5000 and a 32000 token ceiling, the resolved
thinking budget is 5000 — not the lesser of the fixed fallback 2000
(which is what the same participant resolves to when the request-level
budget is also unset) and 31900 — and with thinking enabled the
participant's configured temperature 1/2 is not used: the request
carries temperature 1. -/
theorem C6_counterexample :
    (buildAnthropicReq pC6 [] "" none false (some true) (some 5000)).thinking = some 5000
    ∧ (5000 : Int) ≠ min 2000 (32000 - 100)
    ∧ (buildAnthropicReq pC6 [] "" none false (some true) none).thinking = some 2000
    ∧ pC6.budgetTokens = none
    ∧ (buildAnthropicReq pC6 [] "" none false (some true) (some 5000)).temperature = 1
    ∧ pC6.temperature = some (1 / 2) ∧ (1 : ℚ) ≠ 1 / 2 :=
  ⟨by rfl, by decide, by rfl, by rfl, by rfl, by rfl, by norm_num⟩

/-- Claim C6 as amended: a set participant-level budget is used
unchanged; an unset one resolves to the lesser of the request-level
budget (falling back to the fixed 2000 when that is unset or zero) and
the participant's token ceiling (32000 when unset or zero) minus the
100-token reserve; a participant-level temperature overrides the 0.9
default only while extended thinking is disabled — with thinking
enabled the temperature is forced to 1. -/
theorem C6_amended_budget_resolution (p : Participant) (hist : List Turn) (sys : String)
    (pf : Option String) (isLast : Bool) (ext : Option Bool) (bud : Option Int) :
    (∀ b0, p.budgetTokens = some b0 → thinkBudget p bud = b0)
    ∧ (p.budgetTokens = none →
        thinkBudget p bud = min (orNum bud 2000) (orNum p.maxTokens 32000 - 100))
    ∧ (useThinking p ext = true →
        (buildAnthropicReq p hist sys pf isLast ext bud).thinking = some (thinkBudget p bud)
        ∧ (buildAnthropicReq p hist sys pf isLast ext bud).temperature = 1)
    ∧ (useThinking p ext = false →
        (buildAnthropicReq p hist sys pf isLast ext bud).thinking = none
        ∧ (buildAnthropicReq p hist sys pf isLast ext bud).temperature
          = p.temperature.getD (9 / 10)) := by
  refine ⟨?_, ?_, ?_, ?_⟩
  · intro b0 hb; simp [thinkBudget, hb]
  · intro hb; simp [thinkBudget, hb]
  · intro hu; unfold buildAnthropicReq; simp [hu]
  · intro hu; unfold buildAnthropicReq; simp [hu]

/-- Witness for the amended C6 at the counterexample's concrete input:
request-level budget 5000 resolves to 5000 and thinking forces
temperature 1. -/
theorem C6_amended_budget_resolution_witness :
    thinkBudget pC6 (some 5000)
      = min (orNum (some 5000) 2000) (orNum pC6.maxTokens 32000 - 100)
    ∧ (buildAnthropicReq pC6 [] "" none false (some true) (some 5000)).temperature = 1 :=
  ⟨(C6_amended_budget_resolution pC6 [] "" none false (some true) (some 5000)).2.1 rfl,
   ((C6_amended_budget_resolution pC6 [] "" none false (some true) (some 5000)).2.2.1 rfl).2⟩

end Synergy
